import Mathlib

/-!
Verification of the tool-discovery-and-execution engine of an MCP
(Model Context Protocol) chat orchestrator, shallowly embedded from the
Python source (`backend/app/main.py`, `backend/app/tool_handler.py`,
`backend/app/composio_tools_direct.py`).

The embedding translates the relevant code paths into executable Lean
definitions:

* a `Json` type standing for Python values produced by `json.loads`,
  together with Python truthiness (`pyTruthy`) and `dict` operations;
* tool-name sanitization, qualification and decomposition
  (`main.py` lines 1566-1577 and 1782-1801), on `List Char` so that the
  character-level substitutions are explicit;
* the schema-repair step (`main.py` lines 1550-1564);
* the deduplication step (`main.py` lines 1599-1610);
* the SSE (`text/event-stream`) frame scanner shared by
  `main.py` 975-988 / 1425-1457 / 1877-1891 and `tool_handler.py` 49-62;
* the overload retry loop (`main.py` 1672-1709 and 1929-1959);
* the tool-discovery fallback chains (`main.py` 1238-1249, 1299-1386,
  1415-1491);
* the per-message turn handler with its (degenerate) round loop
  (`main.py` 1718-2034) and per-call processing (1779-1924).

External effects (HTTP transport, the model-completion call, `json.loads`
applied to arbitrary strings) enter as explicit oracle parameters; every
definition is computable so that each theorem can be evaluated on concrete
inputs.
-/

namespace McpClient

/-- Python values as produced by `json.loads` (and the literal dicts the
code builds).  Numbers are modelled as integers — no claim in scope
depends on float arithmetic.  Objects are ordered key/value lists,
matching Python dict insertion order. -/
inductive Json where
  | null : Json
  | bool (b : Bool) : Json
  | num (n : Int) : Json
  | str (s : String) : Json
  | arr (elts : List Json) : Json
  | obj (kvs : List (String × Json)) : Json

/-- Python truthiness (`if not result: ...`): `None`, `False`, `0`, `""`,
`[]` and `\x7b\x7d` are falsy, everything else truthy. -/
def pyTruthy : Json → Bool
  | .null => false
  | .bool b => b
  | .num n => n != 0
  | .str s => s != ""
  | .arr l => !l.isEmpty
  | .obj kvs => !kvs.isEmpty

/-- Whether a Python value is a `dict` (`isinstance(params, dict)`). -/
def isObj : Json → Bool
  | .obj _ => true
  | _ => false

/-- Key membership for a key/value list. -/
def hasKeyKvs (kvs : List (String × Json)) (k : String) : Bool :=
  kvs.any (fun kv => kv.1 == k)

/-- `k in d` for a dict value; `false` on non-dicts (callers guard). -/
def hasKey (j : Json) (k : String) : Bool :=
  match j with
  | .obj kvs => hasKeyKvs kvs k
  | _ => false

/-- `d.get(k)` returning `None` as `Option.none`; `none` on non-dicts. -/
def pyGet (j : Json) (k : String) : Option Json :=
  match j with
  | .obj kvs => (kvs.find? (fun kv => kv.1 == k)).map Prod.snd
  | _ => none

/-- `d.get(k, default)`: the stored value when the key is present (even if
that value is `None`/falsy), otherwise the default. -/
def pyGetD (j : Json) (k : String) (dflt : Json) : Json :=
  match pyGet j k with
  | some v => v
  | none => dflt

/-- Python dict assignment `d[k] = v`: replaces in place when the key
exists, appends otherwise.  Non-dicts are returned unchanged; every call
site in the embedding is guarded by `isObj`. -/
def setKey (j : Json) (k : String) (v : Json) : Json :=
  match j with
  | .obj kvs =>
      if hasKeyKvs kvs k then
        .obj (kvs.map (fun kv => if kv.1 == k then (kv.1, v) else kv))
      else
        .obj (kvs ++ [(k, v)])
  | other => other

/-- Does `pyGet j k` hold the string `s`?  Embeds comparisons such as
`params.get("type") == "object"`. -/
def getIsStr (j : Json) (k : String) (s : String) : Bool :=
  match pyGet j k with
  | some (.str t) => t == s
  | _ => false

/-! ## Tool-name sanitization and qualification (`main.py` 1566-1577)

Names are modelled as `List Char` so the per-character substitutions are
explicit.  Python's `c.isalnum()` is Unicode-aware — it accepts the
ASCII alphanumerics and also non-ASCII Unicode alphanumerics (letters,
digit and numeral categories) — so it enters the embedding as the oracle
parameter `isalnum : Char → Bool`, like `json.loads` does.  Two facts
about the real predicate are used when instantiating it: it agrees with
`Char.isAlphanum` on every ASCII character, and it accepts some
characters outside `[A-Za-z0-9]` (for instance the letter é). -/

/-- One character of the comprehension at line 1571: keep the character
when `c.isalnum() or c in '_-'`, replace it with an underscore
otherwise. -/
def sanitizeChar (isalnum : Char → Bool) (c : Char) : Char :=
  if isalnum c || c == '_' || c == '-' then c else '_'

/-- `clean_name`: the sanitized raw tool name. -/
def cleanName (isalnum : Char → Bool) (toolName : List Char) : List Char :=
  toolName.map (sanitizeChar isalnum)

/-- `clean_server = server.replace('-', '_')` — note: only hyphens are
replaced; characters outside `[A-Za-z0-9_-]` in the server id survive. -/
def cleanServer (server : List Char) : List Char :=
  server.map (fun c => if c == '-' then '_' else c)

/-- The double-underscore separator between the two name segments. -/
def dunder : List Char := ['_', '_']

/-- `full_name = f"\x7bclean_server\x7d__\x7bclean_name\x7d"` followed by
`if len(full_name) > 128: full_name = full_name[:128]`. -/
def qualifyName (isalnum : Char → Bool) (server toolName : List Char) :
    List Char :=
  let full := cleanServer server ++ dunder ++ cleanName isalnum toolName
  if full.length > 128 then full.take 128 else full

/-! ## Tool-name decomposition in the execution loop (`main.py` 1782-1801) -/

/-- `full_name.split("__", 1)`: split at the first occurrence of a double
underscore, `none` when there is none (Python's `"__" in full_name`
guard). -/
def splitDunder : List Char → Option (List Char × List Char)
  | [] => none
  | '_' :: '_' :: rest => some ([], rest)
  | c :: rest =>
      match splitDunder rest with
      | some (pre, post) => some (c :: pre, post)
      | none => none

/-- The underscore-to-hyphen repair attempted on the endpoint segment
(`server_name.replace('_', '-')`). -/
def underToHyphen (s : List Char) : List Char :=
  s.map (fun c => if c == '_' then '-' else c)

/-- The literal fallback server name used when the qualified name holds no
double underscore. -/
def unknownServer : List Char := ['u', 'n', 'k', 'n', 'o', 'w', 'n']

/-- Lines 1782-1801: recover `(actual_server_name, tool_name)` from a
model-issued qualified name, given the registered server ids
(`remote_mcp_servers.keys()`). -/
def decomposeName (known : List (List Char)) (fullName : List Char) :
    List Char × List Char :=
  match splitDunder fullName with
  | none => (unknownServer, fullName)
  | some (serverName, toolName) =>
      if known.contains serverName then (serverName, toolName)
      else
        let hyphenName := underToHyphen serverName
        if known.contains hyphenName then (hyphenName, toolName)
        else (serverName, toolName)

/-! ## Parameter-schema extraction and repair (`main.py` 1550-1564) -/

/-- `tool.get("inputSchema", tool.get("input_schema", tool.get("parameters",
\x7b\x7d)))`: first present key wins, even when its value is `None`. -/
def getInputSchema (tool : Json) : Json :=
  pyGetD tool "inputSchema" (pyGetD tool "input_schema"
    (pyGetD tool "parameters" (.obj [])))

/-- The default schema `\x7b"type": "object", "properties": \x7b\x7d\x7d`
substituted for missing or non-dict input. -/
def defaultSchema : Json :=
  .obj [("type", .str "object"), ("properties", .obj [])]

/-- Lines 1554-1564: repair the extracted schema.  Falsy or non-dict input
is replaced by `defaultSchema`; a dict without `"type"` gets
`"type": "object"`; a dict whose `"type"` is `"object"` but lacks
`"properties"` gets an empty `"properties"` map.  A dict carrying a
non-`"object"` `"type"` is left without `"properties"`. -/
def repairSchema (params : Json) : Json :=
  let p1 :=
    if !pyTruthy params then defaultSchema
    else if !isObj params then defaultSchema
    else if !hasKey params "type" then setKey params "type" (.str "object")
    else params
  if getIsStr p1 "type" "object" && !hasKey p1 "properties" then
    setKey p1 "properties" (.obj [])
  else p1

/-! ## The canonical tool records and the dedup step (`main.py` 1579-1610) -/

/-- The provider-ready `tool_def` (`\x7b"type": "function", "function":
\x7b"name", "description", "parameters"\x7d\x7d`), flattened to its three
payload fields.  `name` is the qualified name. -/
structure ToolDef where
  name : List Char
  description : String
  parameters : Json

/-- Lines 1600-1608 with the `seen_names` accumulator made explicit: keep
a tool when its qualified name has not been seen, otherwise drop it. -/
def dedupGo (seen : List (List Char)) : List ToolDef → List ToolDef
  | [] => []
  | t :: ts =>
      if t.name ∈ seen then dedupGo seen ts
      else t :: dedupGo (t.name :: seen) ts

/-- Lines 1599-1610: `seen_names = set(); unique_tools = [...]`. -/
def dedupTools (ts : List ToolDef) : List ToolDef :=
  dedupGo [] ts

/-! ## SSE frame scanning (`main.py` 975-988, 1425-1457, 1877-1891;
`tool_handler.py` 49-62)

All four sites share one shape: split the body on newlines, walk the
lines in order, and on each line starting with `data: ` attempt
`json.loads` on the rest of the line, breaking at the first success;
afterwards `if not result:` replaces the result with a parse failure.
Body text is `List Char` and `json.loads` enters as the oracle
`loads : List Char → Option Json` (`none` = `json.JSONDecodeError`). -/

/-- One model-issued tool-invocation request (`tc.id`,
`tc.function.name`, `tc.function.arguments`). -/
structure ToolCall where
  id : String
  name : List Char
  argumentsRaw : List Char

/-- A model response: assistant text plus the (possibly empty) list of
tool calls.  `choice.message.tool_calls` being absent/`None`/empty all
present as `toolCalls = []`. -/
structure ModelResponse where
  content : String
  toolCalls : List ToolCall

/-- Outcome of one `completion(...)` attempt. -/
inductive CompAttempt where
  | ok (r : ModelResponse)
  | exn (msg : List Char)

/-- `"x" in s` (Python substring containment). -/
def containsSub (pat : List Char) : List Char → Bool
  | [] => pat.isEmpty
  | c :: rest => pat.isPrefixOf (c :: rest) || containsSub pat rest

/-- Line 1687 / 1943: `"529" in error_str or "overloaded" in
error_str.lower()`. -/
def isOverloadMsg (msg : List Char) : Bool :=
  containsSub ['5', '2', '9'] msg ||
  containsSub "overloaded".toList (msg.map Char.toLower)

/-- Classification of an attempt outcome for stating hypotheses. -/
def attemptOverloads : CompAttempt → Bool
  | .ok _ => false
  | .exn m => isOverloadMsg m

/-- How a retried completion call ends: success, the terminal
user-visible overload error (line 1699-1703 / 1954-1958), a re-raised
non-overload exception (line 1709 / 1959), or the `response is None`
guard (line 1711-1716, reachable only with a zero retry budget). -/
inductive RetryOutcome where
  | success (r : ModelResponse)
  | overloadTerminal
  | raised (msg : List Char)
  | exhausted

/-- Observable trace of the retry loop: total attempts made, the backoff
sleeps performed (seconds), and the outcome. -/
structure RetryTrace where
  attemptsMade : Nat
  sleeps : List Nat
  outcome : RetryOutcome

/-- `for attempt in range(max_retries)` with `retry_delay = 1`: the loop
walks the attempt indices in order.  On an overload error with
`attempt < max_retries - 1` the loop sleeps `retry_delay * 2 ** attempt`
and continues; on the last attempt it surfaces the terminal overload
error (lines 1697-1703); non-overload exceptions re-raise (line 1709);
an exhausted loop leaves `response` as `None` (lines 1711-1716, reachable
only with an empty attempt range). -/
def retryGo (comp : Nat → CompAttempt) (maxRetries retryDelay : Nat) :
    List Nat → RetryTrace
  | [] => { attemptsMade := 0, sleeps := [], outcome := .exhausted }
  | attempt :: restAttempts =>
      match comp attempt with
      | .ok r =>
          { attemptsMade := attempt + 1, sleeps := [], outcome := .success r }
      | .exn m =>
          if isOverloadMsg m then
            if attempt < maxRetries - 1 then
              let t := retryGo comp maxRetries retryDelay restAttempts
              { attemptsMade := t.attemptsMade,
                sleeps := retryDelay * 2 ^ attempt :: t.sleeps,
                outcome := t.outcome }
            else
              { attemptsMade := attempt + 1, sleeps := [],
                outcome := .overloadTerminal }
          else
            { attemptsMade := attempt + 1, sleeps := [], outcome := .raised m }

/-- Lines 1660-1661: `max_retries = 3`, `retry_delay = 1`, so
`range(max_retries)` is `[0, 1, 2]`. -/
def retryCompletion (comp : Nat → CompAttempt) : RetryTrace :=
  retryGo comp 3 1 [0, 1, 2]

/-! ## Tool discovery for a Composio endpoint (`main.py` 1238-1491)

The remote endpoint enters as an oracle `srv : String → Resp` mapping a
JSON-RPC method name to the HTTP response the server gives it (servers
are assumed to answer a given method the same way each time it is
posted).  A response is modelled by what the code observes of it. -/

/-- Content type of a response, as tested by the code (`"application/json"
in content-type`, `content-type.startswith("text/event-stream")`). -/
inductive CType where
  | appJson
  | evStream
  | other
deriving DecidableEq

/-- One HTTP response: status, content type, the result of
`tool_response.json()` (`none` = it raises), and the `json.loads` parses
of the `data: ` line payloads of the body, in order (`none` = that line's
payload fails to parse). -/
structure Resp where
  status : Nat
  ctype : CType
  pyJson : Option Json
  frames : List (Option Json)

/-- Python `k in v`: dict key membership, list element membership, string
substring test; `none` models the `TypeError` raised on other types. -/
def pyIn (k : String) : Json → Option Bool
  | .obj kvs => some (hasKeyKvs kvs k)
  | .arr l => some (l.any (fun e => match e with | .str s => s == k | _ => false))
  | .str s => some (containsSub k.toList s.toList)
  | _ => none

/-- `test.get("error", \x7b\x7d).get("code") == -32601` with every raising
evaluation (non-dict receiver) collapsed to `false` — at each call site
the exception lands in a bare `except` whose effect equals the `false`
branch. -/
def errCodeIs32601 (j : Json) : Bool :=
  match j with
  | .obj _ =>
      match pyGetD j "error" (.obj []) with
      | .obj ekvs =>
          match pyGet (.obj ekvs) "code" with
          | some (.num n) => n == -32601
          | _ => false
      | _ => false
  | _ => false

/-- The response-parsing shape shared by lines 1302-1308 (for
`tools/list`) and 1338-1343 (for each alternate method): take the JSON
body when the content type is `application/json`, and if the value so far
is falsy fall back to `json.loads` of the first `data: ` line (no
per-line tolerance here — a failing parse raises).  `none` covers both
"no value" and "an exception was raised", which the surrounding bare
`except` blocks make observationally equal. -/
def parseAlt (r : Resp) : Option Json :=
  if r.ctype == .appJson then
    match r.pyJson with
    | none => none
    | some v =>
        if pyTruthy v then some v
        else
          match r.frames.head? with
          | none => some v
          | some none => none
          | some (some w) => some w
  else
    match r.frames.head? with
    | none => none
    | some none => none
    | some (some w) => some w

/-- Line 1310: the first fallback chain fires when the `tools/list`
response parses to a truthy value whose error code is `-32601`. -/
def chain1Trigger (r : Resp) : Bool :=
  match parseAlt r with
  | some j => pyTruthy j && errCodeIs32601 j
  | none => false

/-- Line 1345: an alternate method wins when its response parses to a
truthy dict with a `"result"` entry in which `"tools"` occurs; raising
accesses (non-dict `.get`, non-container `in`) collapse to "not a
winner". -/
def isAltWinner (r : Resp) : Bool :=
  match parseAlt r with
  | none => false
  | some j =>
      pyTruthy j &&
      (match pyIn "result" j with
       | some true =>
           (match j with
            | .obj _ =>
                (match pyIn "tools" (pyGetD j "result" (.obj [])) with
                 | some true => true
                 | _ => false)
            | _ => false)
       | _ => false)

/-- Lines 1314-1321: the first fallback chain's method names, in order. -/
def altMethods : List String :=
  ["composio/tools/list", "composio.tools.list", "getTools", "get_tools",
   "listTools", "list_tools"]

/-- Lines 1323-1352: post each alternate method in order, adopting the
first winner as the new `tool_response` and stopping there; every posted
method is recorded. -/
def chain1Go (srv : String → Resp) : List String → List String × Option Resp
  | [] => ([], none)
  | m :: ms =>
      let r := srv m
      if isAltWinner r then ([m], some r)
      else
        let step := chain1Go srv ms
        (m :: step.1, step.2)

/-- Lines 1357-1386: the second fallback chain's method names, in order. -/
def chain2Methods : List String := ["mcp/list_tools", "listTools", "list"]

/-- Lines 1356-1386: while the current response body parses as plain JSON
with error code exactly `-32601`, post the next method of
`chain2Methods` and adopt its response; stop at any other response —
including a `.json()` that raises (the bare `except: pass`) and any
non-`-32601` error — whether or not it contains tools. -/
def chain2Go (srv : String → Resp) (r : Resp) :
    List String → List String × Resp
  | [] => ([], r)
  | m :: ms =>
      match r.pyJson with
      | none => ([], r)
      | some j =>
          if errCodeIs32601 j then
            let r2 := srv m
            let step := chain2Go srv r2 ms
            (m :: step.1, step.2)
          else ([], r)

/-- Lines 1415-1491: turn the final `tool_response` into the endpoint's
`server_tools` value (default empty list).  The branch for a JSON-RPC
error with code `-32601` (lines 1474-1477) only logs "Using hardcoded
tool definitions for Composio" — it assigns no tools, so it is
indistinguishable here from every other error branch. -/
def extractTools (r : Resp) : Json :=
  if r.status ≥ 400 then .arr []
  else
    let result : Option Json :=
      if r.ctype == .evStream then (r.frames.filterMap id).head?
      else r.pyJson
    match result with
    | none => .arr []
    | some j =>
        if !pyTruthy j then .arr []
        else
          match pyIn "error" j with
          | none => .arr []
          | some true => .arr []
          | some false =>
              match pyIn "result" j with
              | some true =>
                  match j with
                  | .obj _ =>
                      let res := pyGetD j "result" (.obj [])
                      (match pyIn "tools" res with
                       | some true =>
                           (match res with
                            | .obj _ => pyGetD res "tools" (.arr [])
                            | _ => .arr [])
                       | _ => .arr [])
                  | _ => .arr []
              | _ => .arr []

/-- Tool discovery for one Composio endpoint after session negotiation:
`initTools` is the tools array embedded in the `initialize` response
(empty when none was).  Returns the JSON-RPC methods posted, in order,
and the endpoint's final `server_tools` value.  Lines 1238-1249: when
`initialize` already yielded tools they are used directly and no listing
RPC is made. -/
def discover (srv : String → Resp) (initTools : List Json) :
    List String × Json :=
  if !initTools.isEmpty then ([], .arr initTools)
  else
    let r0 := srv "tools/list"
    let c1 :=
      if r0.status == 200 && chain1Trigger r0 then chain1Go srv altMethods
      else ([], none)
    let rCur := c1.2.getD r0
    let c2 := chain2Go srv rCur chain2Methods
    ("tools/list" :: c1.1 ++ c2.1, extractTools c2.2)

/-! ## The statically bundled Composio Gmail tool list
(`composio_tools_direct.py` 23-67)

`ComposioToolsDirect.get_gmail_tools` builds fourteen static tool
descriptors.  Nothing in the repository ever calls it. -/

/-- `gmail_actions` (`composio_tools_direct.py` 31-46). -/
def gmailActions : List String :=
  ["GMAIL_SEND_EMAIL", "GMAIL_GET_PROFILE", "GMAIL_LIST_EMAILS",
   "GMAIL_GET_EMAIL", "GMAIL_CREATE_DRAFT", "GMAIL_REPLY_TO_EMAIL",
   "GMAIL_FORWARD_EMAIL", "GMAIL_DELETE_EMAIL", "GMAIL_MARK_EMAIL_AS_READ",
   "GMAIL_MARK_EMAIL_AS_UNREAD", "GMAIL_ADD_LABEL_TO_EMAIL",
   "GMAIL_REMOVE_LABEL_FROM_EMAIL", "GMAIL_LIST_LABELS",
   "GMAIL_CREATE_LABEL"]

/-- Python `str.title()` restricted to the space-separated uppercase words
it is applied to here. -/
def pyTitle (s : String) : String :=
  String.intercalate " " ((s.splitOn " ").map (fun w => w.toLower.capitalize))

/-- One static descriptor (`composio_tools_direct.py` 49-58). -/
def gmailToolDescriptor (actionName : String) : Json :=
  .obj [("name", .str actionName),
        ("description", .str ("Gmail action: " ++
          pyTitle (((actionName.replace "GMAIL_" "").replace "_" " ")))),
        ("inputSchema", .obj [("type", .str "object"),
                              ("properties", .obj []),
                              ("required", .arr [])])]

/-- `get_gmail_tools`: empty without an API key, otherwise the fourteen
static descriptors. -/
def getGmailTools (hasApiKey : Bool) : List Json :=
  if !hasApiKey then [] else gmailActions.map gmailToolDescriptor

/-! ## Per-call processing in the execution loop (`main.py` 1779-1924)

Tool execution over the wire is abstracted into the oracle
`exec : ExecReq → Json` giving the `tool_result` value the code extracts
from the transport response (the response-envelope handling itself is the
`parseSSE` model above).  `json.loads` on the model-issued argument
string enters as the same kind of `loads` oracle as for SSE frames. -/

/-- What the code observes of a registered endpoint's config during
execution: `"composio" in config.endpoint` and the result of
`re.search(r"user_id=([^&]+)", config.endpoint)`. -/
structure ServerConfig where
  isComposio : Bool
  slackUserId : Option String

/-- The events written to the live websocket connection. -/
inductive Event where
  | statusEv (msg : String)
  | toolCallEv (server tool : List Char) (args : Json)
  | toolResultEv (server tool : List Char) (result : Json)
  | messageEv (content : String)
  | errorEv (msg : String)

/-- Messages appended to `llm_messages` during a turn. -/
inductive ConvMsg where
  | assistantMsg (content : String) (toolCalls : List ToolCall)
  | toolMsg (callId : String) (content : Json)

/-- One transport invocation made to execute a tool (`tools/call` against
a remote endpoint, or the local `mcpd` POST). -/
structure ExecReq where
  remote : Bool
  server : List Char
  tool : List Char
  args : Json

/-- Trace of processing one model-issued call: events emitted, the
tool-result message appended to the conversation, and the transport
invocations made. -/
structure CallTrace where
  events : List Event
  msg : ConvMsg
  execReqs : List ExecReq

/-- The per-endpoint registry (`remote_mcp_servers`). -/
def Registry := List (List Char × ServerConfig)

/-- Registered endpoint ids. -/
def registryNames (reg : Registry) : List (List Char) :=
  reg.map Prod.fst

/-- Config lookup. -/
def registryFind (reg : Registry) (name : List Char) : Option ServerConfig :=
  (reg.find? (fun e => e.1 == name)).map Prod.snd

/-- Lines 1841-1853: for a Composio endpoint whose original server
segment contains "slack" (case-insensitively) and whose endpoint URL
embeds `user_id=...`, the extracted user id is injected into the
arguments as `entity_id` (coercing non-dict arguments to an empty dict
first). -/
def slackInject (serverName : List Char) (cfg : ServerConfig) (args : Json) :
    Json :=
  if containsSub "slack".toList (serverName.map Char.toLower) && cfg.isComposio
  then
    match cfg.slackUserId with
    | some u =>
        setKey (if isObj args then args else .obj []) "entity_id" (.str u)
    | none => args
  else args

/-- Lines 1779-1924: process one model-issued tool call.  The qualified
name is decomposed (1782-1801); the argument string is parsed with a bare
`except` defaulting to an empty dict (1803-1807); the `tool_call` event is
emitted with the resolved server and pre-injection arguments (1809-1814);
the tool executes exactly once — remotely when the resolved name is
registered (1818-1897, with the Slack injection), locally via `mcpd`
otherwise (1898-1908); the `tool_result` event carries the original
server segment (1910-1915); the tool-result message keyed by the
model-issued call id is appended (1917-1924). -/
def processCall (loads : List Char → Option Json) (reg : Registry)
    (exec : ExecReq → Json) (c : ToolCall) : CallTrace :=
  let decomposed := decomposeName (registryNames reg) c.name
  let serverName :=
    match splitDunder c.name with
    | some p => p.1
    | none => unknownServer
  let toolName := decomposed.2
  let actualServerName := decomposed.1
  let arguments :=
    match loads c.argumentsRaw with
    | some v => v
    | none => .obj []
  let callEvent := Event.toolCallEv actualServerName toolName arguments
  let req :=
    match registryFind reg actualServerName with
    | some cfg =>
        { remote := true, server := actualServerName, tool := toolName,
          args := slackInject serverName cfg arguments : ExecReq }
    | none =>
        { remote := false, server := serverName, tool := toolName,
          args := arguments : ExecReq }
  let toolResult := exec req
  { events := [callEvent, Event.toolResultEv serverName toolName toolResult],
    msg := ConvMsg.toolMsg c.id toolResult,
    execReqs := [req] }

/-! ## The per-message turn handler (`main.py` 1718-2034)

The handler runs inside the websocket receive loop
(`while True:` at line 1020).  Lines 1722-1727 read

  `while tool_round < max_tool_rounds:` /
  `tool_round += 1` / debug prints

and — because the statements from line 1728 on are indented at the level
of the `while` itself, not inside it — that loop's entire body is the
increment and the prints.  The tool-handling code below it therefore runs
exactly once per received client message, after `tool_round` has already
been counted up to the cap.  The `continue` at line 1979 consequently
targets the outer receive loop (awaiting the next client message), the
`break`s at 2002/2024 leave that receive loop, and the round-cap message
of lines 2026-2034 sits after a conditional all of whose branches
`continue`/`break`/`return`, making it unreachable; it is omitted from
the model for that reason. -/

/-- The degenerate `while tool_round < max_tool_rounds: tool_round += 1`
loop of lines 1722-1727: it only counts `tool_round` up to the cap. -/
def bumpRound (r maxRounds : Nat) : Nat :=
  if r < maxRounds then bumpRound (r + 1) maxRounds else r
termination_by maxRounds - r
decreasing_by omega

/-- How handling one client message ends: an early `return` out of the
handler, the line-1979 `continue` back to awaiting the next client
message, or the line-2002/2024 `break` out of the receive loop. -/
inductive TurnExit where
  | errorReturn
  | awaitNextClientMessage
  | exitReceiveLoop
deriving DecidableEq

/-- Observable outcome of handling one client message. -/
structure TurnResult where
  events : List Event
  appended : List ConvMsg
  toolRoundVar : Nat
  toolRoundsExecuted : Nat
  exit : TurnExit

/-- Line 1701 / 1956. -/
def overloadedErrorText : String :=
  "The API is currently overloaded. Please try again in a moment."

/-- Lines 1718-2034 for one received client message.  `compSeq k` is the
attempt oracle of the `k`-th `completion(...)` call site reached (`0` =
the initial call of lines 1672-1709, `1` = the post-tool call of lines
1929-1959).  Tool calls are processed in issue order (1779-1924).  When
the post-tool response carries further tool calls, line 1979's `continue`
abandons them and returns to the receive loop: no second round of tool
execution can occur within one client message. -/
def handleTurn (compSeq : Nat → Nat → CompAttempt)
    (loads : List Char → Option Json) (reg : Registry)
    (exec : ExecReq → Json) : TurnResult :=
  match (retryCompletion (compSeq 0)).outcome with
  | .overloadTerminal =>
      { events := [.errorEv overloadedErrorText], appended := [],
        toolRoundVar := 0, toolRoundsExecuted := 0, exit := .errorReturn }
  | .raised m =>
      { events := [.errorEv ("Error calling model: " ++ String.mk m)],
        appended := [], toolRoundVar := 0, toolRoundsExecuted := 0,
        exit := .errorReturn }
  | .exhausted =>
      { events := [.errorEv "Failed to get response from model after retries"],
        appended := [], toolRoundVar := 0, toolRoundsExecuted := 0,
        exit := .errorReturn }
  | .success r =>
      let roundVar := bumpRound 0 5
      if r.toolCalls.isEmpty then
        { events := [.messageEv r.content], appended := [],
          toolRoundVar := roundVar, toolRoundsExecuted := 0,
          exit := .exitReceiveLoop }
      else
        let traces := r.toolCalls.map (processCall loads reg exec)
        let evs := Event.statusEv "Executing tools" ::
          (traces.map CallTrace.events).flatten
        let appended := ConvMsg.assistantMsg r.content r.toolCalls ::
          traces.map CallTrace.msg
        match (retryCompletion (compSeq 1)).outcome with
        | .overloadTerminal =>
            { events := evs ++ [.errorEv overloadedErrorText],
              appended := appended, toolRoundVar := roundVar,
              toolRoundsExecuted := 1, exit := .errorReturn }
        | .raised m =>
            { events := evs ++ [.errorEv ("Error calling model: " ++ String.mk m)],
              appended := appended, toolRoundVar := roundVar,
              toolRoundsExecuted := 1, exit := .errorReturn }
        | .exhausted =>
            { events := evs ++ [.errorEv "Failed to get response after tool execution"],
              appended := appended, toolRoundVar := roundVar,
              toolRoundsExecuted := 1, exit := .errorReturn }
        | .success fr =>
            if fr.toolCalls.isEmpty then
              { events := evs ++
                  [.messageEv (if fr.content == "" then
                    "I completed the tool execution but could not generate a response. Please check the logs."
                    else fr.content)],
                appended := appended, toolRoundVar := roundVar,
                toolRoundsExecuted := 1, exit := .exitReceiveLoop }
            else
              { events := evs, appended := appended,
                toolRoundVar := roundVar, toolRoundsExecuted := 1,
                exit := .awaitNextClientMessage }

/-! ## Concrete instances used by the theorems below -/

/-- The character set `[A-Za-z0-9_-]` named by the claim
(`Char.isAlphanum` is exactly the ASCII alphanumerics). -/
def inAllowedCharset (c : Char) : Bool :=
  c.isAlphanum || c == '_' || c == '-'

/-- A concrete stand-in for Python's Unicode-aware `str.isalnum`,
agreeing with it on every character the theorems below query: on ASCII
characters `str.isalnum` coincides with `Char.isAlphanum`, and it also
accepts the non-ASCII letter é. -/
def pyAlnumLit (c : Char) : Bool :=
  c.isAlphanum || c == 'é'

/-- No two adjacent characters of the list are both underscores (stated
on the list extended so that a trailing underscore also counts, see
`splitDunder_boundary`). -/
def noDunder : List Char → Bool
  | a :: b :: rest => !(a == '_' && b == '_') && noDunder (b :: rest)
  | _ => true

/-- A completion boundary that always returns one tool call, for both
call sites (the claim's round-cap scenario). -/
def alwaysToolCallStub : Nat → Nat → CompAttempt :=
  fun _ _ => CompAttempt.ok
    { content := "",
      toolCalls := [{ id := "c1",
                      name := ['s', 'r', 'v', '_', '_', 'p', 'i', 'n', 'g'],
                      argumentsRaw := [] }] }

/-- A `json.loads` oracle on which every payload fails to parse. -/
def noLoads : List Char → Option Json := fun _ => none

/-- A transport oracle returning an empty tool result. -/
def emptyExec : ExecReq → Json := fun _ => Json.obj []

/-- Whether an event is a `message` event (the only event kind the
round-cap terminal message could be). -/
def isMessageEvent : Event → Bool
  | .messageEv _ => true
  | _ => false

/-- A registered Composio Slack endpoint whose URL embeds
`user_id=U1`. -/
def slackRegistry : Registry :=
  [(['s', 'l', 'a', 'c', 'k', 's', 'r', 'v'],
    { isComposio := true, slackUserId := some "U1" })]

/-- A model-issued call to that endpoint whose argument string `x` is not
valid JSON. -/
def slackCall : ToolCall :=
  { id := "c9",
    name := ['s', 'l', 'a', 'c', 'k', 's', 'r', 'v', '_', '_',
             'S', 'E', 'N', 'D'],
    argumentsRaw := ['x'] }

/-- A model-issued call to an unregistered endpoint whose argument string
`x` is not valid JSON. -/
def plainCall : ToolCall :=
  { id := "c2",
    name := ['s', 'r', 'v', '_', '_', 'p', 'i', 'n', 'g'],
    argumentsRaw := ['x'] }

/-- A plain-JSON response carrying JSON-RPC error `-32601`
(`MethodNotFound`). -/
def err32601Resp : Resp :=
  { status := 200, ctype := .appJson,
    pyJson := some (.obj [("error", .obj [("code", .num (-32601))])]),
    frames := [] }

/-- A plain-JSON non-error response whose `result` contains no tools
array. -/
def resultNoToolsResp : Resp :=
  { status := 200, ctype := .appJson,
    pyJson := some (.obj [("result", .obj [])]),
    frames := [] }

/-- A Composio endpoint answering every method with `MethodNotFound` —
the degraded server of claim C8. -/
def allMethodNotFound : String → Resp := fun _ => err32601Resp

/-- A Composio endpoint answering `MethodNotFound` to every method except
`mcp/list_tools`, which returns a non-error result without tools. -/
def chain2StopsServer : String → Resp := fun m =>
  if m == "mcp/list_tools" then resultNoToolsResp else err32601Resp

/-! ## Theorems -/

/-! ### C3: the dedup step keeps the first tool of each qualified name -/

theorem dedupGo_sublist (seen : List (List Char)) (ts : List ToolDef) :
    List.Sublist (dedupGo seen ts) ts := by
  induction ts generalizing seen with
  | nil => simp [dedupGo]
  | cons t ts ih =>
      simp only [dedupGo]
      split
      · exact (ih seen).trans (List.sublist_cons_self t ts)
      · exact (ih (t.name :: seen)).cons₂ t

theorem dedupGo_name_not_mem (seen : List (List Char)) (ts : List ToolDef) :
    ∀ u ∈ dedupGo seen ts, u.name ∉ seen := by
  induction ts generalizing seen with
  | nil => simp [dedupGo]
  | cons t ts ih =>
      intro u hu
      simp only [dedupGo] at hu
      split at hu
      · exact ih seen u hu
      · rcases List.mem_cons.1 hu with rfl | hu
        · assumption
        · have := ih (t.name :: seen) u hu
          exact fun hseen => this (List.mem_cons_of_mem _ hseen)

theorem dedupGo_nodup (seen : List (List Char)) (ts : List ToolDef) :
    ((dedupGo seen ts).map ToolDef.name).Nodup := by
  induction ts generalizing seen with
  | nil => simp [dedupGo]
  | cons t ts ih =>
      simp only [dedupGo]
      split
      · exact ih seen
      · simp only [List.map_cons, List.nodup_cons]
        refine ⟨fun hmem => ?_, ih (t.name :: seen)⟩
        obtain ⟨u, hu, hname⟩ := List.mem_map.1 hmem
        exact dedupGo_name_not_mem _ _ u hu (hname ▸ List.mem_cons_self _ _)

theorem dedupGo_find? (seen : List (List Char)) (ts : List ToolDef)
    (n : List Char) (hn : n ∉ seen) :
    (dedupGo seen ts).find? (fun t => t.name == n) =
      ts.find? (fun t => t.name == n) := by
  induction ts generalizing seen with
  | nil => simp [dedupGo]
  | cons t ts ih =>
      simp only [dedupGo]
      split
      · rename_i hmem
        have hne : (t.name == n) = false :=
          beq_eq_false_iff_ne.2 (fun h => hn (h ▸ hmem))
        rw [List.find?_cons_of_neg _ (by simp [hne]), ih seen hn]
      · by_cases h : t.name = n
        · rw [List.find?_cons_of_pos _ (by simp [h]),
            List.find?_cons_of_pos _ (by simp [h])]
        · have hne : (t.name == n) = false := beq_eq_false_iff_ne.2 h
          rw [List.find?_cons_of_neg _ (by simp [hne]),
            List.find?_cons_of_neg _ (by simp [hne])]
          exact ih (t.name :: seen)
            (by simp only [List.mem_cons, not_or]
                exact ⟨fun hh => h hh.symm, hn⟩)

/-- Claim C3: for every list of canonical tools assembled for a turn
(collisions included), the deduplicated output is a subsequence of the
input containing no two tools with the same qualified name, and for each
qualified name the tool retained is exactly the first tool carrying that
name in discovery order — so a later colliding tool is dropped. -/
theorem dedup_no_duplicate_names_first_retained (ts : List ToolDef) :
    List.Sublist (dedupTools ts) ts ∧
    ((dedupTools ts).map ToolDef.name).Nodup ∧
    ∀ n : List Char,
      (dedupTools ts).find? (fun t => t.name == n) =
        ts.find? (fun t => t.name == n) :=
  ⟨dedupGo_sublist [] ts, dedupGo_nodup [] ts,
   fun n => dedupGo_find? [] ts n (List.not_mem_nil n)⟩

/-! ### Dictionary lemmas for `setKey` / `pyGet` / `hasKey` -/

theorem hasKey_eq_isSome (j : Json) (k : String) :
    hasKey j k = (pyGet j k).isSome := by
  cases j with
  | obj kvs =>
      induction kvs with
      | nil => rfl
      | cons kv rest ih =>
          simp only [hasKey, hasKeyKvs, pyGet, List.any_cons, List.find?_cons]
          cases h : (kv.1 == k) with
          | true => simp
          | false =>
              simp only [Bool.false_or]
              simpa [hasKey, hasKeyKvs, pyGet] using ih
  | null => rfl
  | bool b => rfl
  | num n => rfl
  | str s => rfl
  | arr l => rfl

theorem find?_eq_none_of_no_key (kvs : List (String × Json)) (k : String)
    (hk : hasKeyKvs kvs k = false) :
    kvs.find? (fun kv => kv.1 == k) = none := by
  rw [List.find?_eq_none]
  intro kv hmem hkv
  have : hasKeyKvs kvs k = true := by
    simp only [hasKeyKvs, List.any_eq_true]
    exact ⟨kv, hmem, hkv⟩
  simp [this] at hk

theorem setKey_obj_shape (kvs : List (String × Json)) (k : String)
    (v : Json) : ∃ kvs2, setKey (.obj kvs) k v = .obj kvs2 := by
  simp only [setKey]
  split <;> exact ⟨_, rfl⟩

theorem isObj_setKey (kvs : List (String × Json)) (k : String) (v : Json) :
    isObj (setKey (.obj kvs) k v) = true := by
  obtain ⟨kvs2, h⟩ := setKey_obj_shape kvs k v
  rw [h]; rfl

theorem pyGet_setKey_self (kvs : List (String × Json)) (k : String)
    (v : Json) : pyGet (setKey (.obj kvs) k v) k = some v := by
  simp only [setKey]
  split
  · rename_i hk
    simp only [pyGet]
    induction kvs with
    | nil => simp [hasKeyKvs] at hk
    | cons kv rest ih =>
        simp only [List.map_cons]
        cases h : (kv.1 == k) with
        | true =>
            rw [List.find?_cons_of_pos _ (by simp [h])]
            simp [h]
        | false =>
            rw [List.find?_cons_of_neg _ (by simp [h])]
            simp only [hasKeyKvs, List.any_cons, h, Bool.false_or] at hk
            exact ih hk
  · rename_i hk
    have hk' : hasKeyKvs kvs k = false := by simpa using hk
    simp only [pyGet, List.find?_append, find?_eq_none_of_no_key kvs k hk']
    simp [List.find?_cons]

theorem pyGet_setKey_ne (kvs : List (String × Json)) (k kq : String)
    (v : Json) (h : kq ≠ k) :
    pyGet (setKey (.obj kvs) k v) kq = pyGet (.obj kvs) kq := by
  simp only [setKey]
  split
  · rename_i hk
    clear hk
    simp only [pyGet]
    induction kvs with
    | nil => rfl
    | cons kv rest ih =>
        simp only [List.map_cons]
        cases hkk : (kv.1 == k) with
        | true =>
            have h1 : kv.1 = k := by simpa using hkk
            have h2 : (kv.1 == kq) = false := by
              rw [h1]
              exact beq_eq_false_iff_ne.2 (fun hh => h hh.symm)
            rw [List.find?_cons_of_neg _ (by simp [hkk, h2]),
              List.find?_cons_of_neg _ (by simp [h2])]
            exact ih
        | false =>
            cases hq : (kv.1 == kq) with
            | true =>
                rw [List.find?_cons_of_pos _ (by simp [hkk, hq]),
                  List.find?_cons_of_pos _ (by simp [hq])]
                simp [hkk]
            | false =>
                rw [List.find?_cons_of_neg _ (by simp [hkk, hq]),
                  List.find?_cons_of_neg _ (by simp [hq])]
                exact ih
  · simp only [pyGet, List.find?_append]
    have hlast : List.find? (fun kv => kv.1 == kq) [(k, v)] = none := by
      rw [List.find?_eq_none]
      intro kv hmem hkv
      simp only [List.mem_singleton] at hmem
      subst hmem
      have hkk : k = kq := by simpa using hkv
      exact h hkk.symm
    simp [hlast]

theorem hasKey_setKey_self (kvs : List (String × Json)) (k : String)
    (v : Json) : hasKey (setKey (.obj kvs) k v) k = true := by
  rw [hasKey_eq_isSome, pyGet_setKey_self]; rfl

theorem hasKey_setKey_ne (kvs : List (String × Json)) (k kq : String)
    (v : Json) (h : kq ≠ k) :
    hasKey (setKey (.obj kvs) k v) kq = hasKey (.obj kvs) kq := by
  rw [hasKey_eq_isSome, pyGet_setKey_ne kvs k kq v h, ← hasKey_eq_isSome]

theorem getIsStr_setKey_self (kvs : List (String × Json)) (k s : String) :
    getIsStr (setKey (.obj kvs) k (.str s)) k s = true := by
  simp [getIsStr, pyGet_setKey_self]

theorem getIsStr_setKey_ne (kvs : List (String × Json)) (k kq s : String)
    (v : Json) (h : kq ≠ k) :
    getIsStr (setKey (.obj kvs) k v) kq s = getIsStr (.obj kvs) kq s := by
  simp [getIsStr, pyGet_setKey_ne kvs k kq v h]

/-! ### C4: schema repair — counterexample, amended statement, witness -/

/-- Claim C4 (counterexample): the claim asserts the normalized
parameters object always has type `"object"` and a `"properties"` key.
For the discovered tool `\x7b"inputSchema": \x7b"type": "string"\x7d\x7d`
the normalizer keeps the non-`"object"` type and adds no `"properties"`
key, so the claim is false as stated. -/
theorem repairSchema_counterexample :
    getIsStr (repairSchema (getInputSchema
      (Json.obj [("inputSchema", Json.obj [("type", Json.str "string")])])))
      "type" "object" = false ∧
    hasKey (repairSchema (getInputSchema
      (Json.obj [("inputSchema", Json.obj [("type", Json.str "string")])])))
      "properties" = false := by
  constructor <;> rfl

theorem repairSchema_eq_default_of_falsy (p : Json)
    (h : pyTruthy p = false) : repairSchema p = defaultSchema := by
  simp only [repairSchema, h, Bool.not_false, if_true]
  rfl

theorem repairSchema_eq_default_of_not_obj (p : Json)
    (h1 : pyTruthy p = true) (h2 : isObj p = false) :
    repairSchema p = defaultSchema := by
  simp only [repairSchema, h1, h2, Bool.not_true, Bool.not_false,
    Bool.false_eq_true, if_false, if_true]
  rfl

theorem hasKey_type_false_of_not_obj (p : Json) (h : isObj p = false) :
    hasKey p "type" = false := by
  cases p with
  | obj kvs => simp [isObj] at h
  | null => rfl
  | bool b => rfl
  | num n => rfl
  | str s => rfl
  | arr l => rfl

/-- Claim C4 (amended): for every discovered tool — including ones whose
input schema is absent, null, or not a dictionary — the repaired
parameters value is a dictionary carrying a `"type"` key; whenever that
type is `"object"` a `"properties"` key is present; and whenever the
extracted schema did not itself carry a `"type"` key (in particular when
it was absent, null, empty, or not a dictionary) the repaired type is
`"object"` and `"properties"` is present.  The repaired type is
`"object"` only up to a type the input schema itself supplied: a schema
arriving with a different `"type"` keeps it and gains no `"properties"`
key. -/
theorem repairSchema_spec (tool : Json) :
    isObj (repairSchema (getInputSchema tool)) = true ∧
    hasKey (repairSchema (getInputSchema tool)) "type" = true ∧
    (getIsStr (repairSchema (getInputSchema tool)) "type" "object" = true →
      hasKey (repairSchema (getInputSchema tool)) "properties" = true) ∧
    (hasKey (getInputSchema tool) "type" = false →
      getIsStr (repairSchema (getInputSchema tool)) "type" "object" = true ∧
      hasKey (repairSchema (getInputSchema tool)) "properties" = true) := by
  generalize getInputSchema tool = p
  have hdd : isObj (repairSchema p) = true ∧
      hasKey (repairSchema p) "type" = true ∧
      (getIsStr (repairSchema p) "type" "object" = true →
        hasKey (repairSchema p) "properties" = true) ∧
      (getIsStr (repairSchema p) "type" "object" = true ∧
        hasKey (repairSchema p) "properties" = true) →
      isObj (repairSchema p) = true ∧
      hasKey (repairSchema p) "type" = true ∧
      (getIsStr (repairSchema p) "type" "object" = true →
        hasKey (repairSchema p) "properties" = true) ∧
      (hasKey p "type" = false →
        getIsStr (repairSchema p) "type" "object" = true ∧
        hasKey (repairSchema p) "properties" = true) := by
    rintro ⟨a, b, c, d⟩
    exact ⟨a, b, c, fun _ => d⟩
  by_cases htr : pyTruthy p = true
  · by_cases hobj : isObj p = true
    · obtain ⟨kvs, rfl⟩ : ∃ kvs, p = .obj kvs := by
        cases p with
        | obj kvs => exact ⟨kvs, rfl⟩
        | null => exact absurd hobj (by simp [isObj])
        | bool b => exact absurd hobj (by simp [isObj])
        | num n => exact absurd hobj (by simp [isObj])
        | str s => exact absurd hobj (by simp [isObj])
        | arr l => exact absurd hobj (by simp [isObj])
      by_cases hty : hasKey (.obj kvs) "type" = true
      · -- the input supplies its own "type"
        have hp1 : repairSchema (.obj kvs) =
            (if getIsStr (.obj kvs) "type" "object" &&
                !hasKey (.obj kvs) "properties" then
              setKey (.obj kvs) "properties" (.obj [])
            else (.obj kvs)) := by
          simp only [repairSchema, htr, hobj, hty, Bool.not_true,
            Bool.false_eq_true, if_false]
        by_cases hcond : (getIsStr (.obj kvs) "type" "object" &&
            !hasKey (.obj kvs) "properties") = true
        · rw [hp1, if_pos hcond]
          have hself := hasKey_setKey_self kvs "properties" (.obj [])
          have htyk : hasKey (setKey (.obj kvs) "properties" (.obj []))
              "type" = true := by
            rw [hasKey_setKey_ne kvs "properties" "type" (.obj [])
              (by decide)]
            exact hty
          exact ⟨isObj_setKey _ _ _, htyk, fun _ => hself,
            fun hc => absurd hty (by simp [hc])⟩
        · rw [hp1, if_neg hcond]
          have hprops : getIsStr (.obj kvs) "type" "object" = true →
              hasKey (.obj kvs) "properties" = true := by
            intro hg
            cases hp : hasKey (.obj kvs) "properties" with
            | true => rfl
            | false => exact absurd (by simp [hg, hp]) hcond
          exact ⟨hobj, hty, hprops, fun hc => absurd hty (by simp [hc])⟩
      · -- "type" is defaulted to "object"
        have hty' : hasKey (.obj kvs) "type" = false := by simpa using hty
        obtain ⟨kvs1, hk1⟩ := setKey_obj_shape kvs "type" (.str "object")
        have hp1 : repairSchema (.obj kvs) =
            (if getIsStr (.obj kvs1) "type" "object" &&
                !hasKey (.obj kvs1) "properties" then
              setKey (.obj kvs1) "properties" (.obj [])
            else (.obj kvs1)) := by
          simp only [repairSchema, htr, hobj, hty', Bool.not_true,
            Bool.not_false, Bool.false_eq_true, if_false, if_true, hk1]
        have hget1 : getIsStr (.obj kvs1) "type" "object" = true := by
          rw [← hk1]; exact getIsStr_setKey_self kvs "type" "object"
        have htyk1 : hasKey (.obj kvs1) "type" = true := by
          rw [← hk1]; exact hasKey_setKey_self kvs "type" (.str "object")
        apply hdd
        by_cases hpr : hasKey (.obj kvs1) "properties" = true
        · rw [hp1, if_neg (by simp [hget1, hpr])]
          exact ⟨(by rw [← hk1]; exact isObj_setKey _ _ _), htyk1,
            fun _ => hpr, hget1, hpr⟩
        · have hpr' : hasKey (.obj kvs1) "properties" = false := by
            simpa using hpr
          rw [hp1, if_pos (by simp [hget1, hpr'])]
          have hself := hasKey_setKey_self kvs1 "properties" (.obj [])
          have hget2 : getIsStr (setKey (.obj kvs1) "properties" (.obj []))
              "type" "object" = true := by
            rw [getIsStr_setKey_ne kvs1 "properties" "type" "object"
              (.obj []) (by decide)]
            exact hget1
          have htyk2 : hasKey (setKey (.obj kvs1) "properties" (.obj []))
              "type" = true := by
            rw [hasKey_setKey_ne kvs1 "properties" "type" (.obj [])
              (by decide)]
            exact htyk1
          exact ⟨isObj_setKey _ _ _, htyk2, fun _ => hself, hget2, hself⟩
    · have hobj' : isObj p = false := by simpa using hobj
      rw [repairSchema_eq_default_of_not_obj p htr hobj']
      exact ⟨rfl, rfl, fun _ => rfl, fun _ => ⟨rfl, rfl⟩⟩
  · have htr' : pyTruthy p = false := by simpa using htr
    rw [repairSchema_eq_default_of_falsy p htr']
    exact ⟨rfl, rfl, fun _ => rfl, fun _ => ⟨rfl, rfl⟩⟩

/-- Witness for `repairSchema_spec` at the tool
`\x7b"inputSchema": null\x7d`, discharging its hypotheses. -/
theorem repairSchema_spec_witness :
    (getIsStr (repairSchema (getInputSchema
       (Json.obj [("inputSchema", Json.null)]))) "type" "object" = true ∧
     hasKey (repairSchema (getInputSchema
       (Json.obj [("inputSchema", Json.null)]))) "properties" = true) ∧
    hasKey (repairSchema (getInputSchema
      (Json.obj [("inputSchema", Json.null)]))) "properties" = true :=
  ⟨(repairSchema_spec (Json.obj [("inputSchema", Json.null)])).2.2.2 rfl,
   (repairSchema_spec (Json.obj [("inputSchema", Json.null)])).2.2.1 rfl⟩

/-! ### C5: qualified-name sanitization — counterexample, amended
statement -/

/-- Claim C5 (counterexample): the claim asserts every character of the
qualified name lies in `[A-Za-z0-9_-]`.  It fails on both segments.  For
endpoint id `a.b` and raw tool name `t` the produced qualified name is
`a.b__t` — the dot survives, because the endpoint segment only has
hyphens replaced (`server.replace('-', '_')`), not a full sanitization.
And for endpoint id `s` with raw tool name `é` — a character Python's
Unicode-aware `isalnum` accepts, here witnessed by the faithful oracle
`pyAlnumLit` — the qualified name is `s__é`, whose last character also
lies outside the set: the sanitizer keeps non-ASCII alphanumerics. -/
theorem qualify_charset_counterexample :
    qualifyName pyAlnumLit ['a', '.', 'b'] ['t'] =
      ['a', '.', 'b', '_', '_', 't'] ∧
    (qualifyName pyAlnumLit ['a', '.', 'b'] ['t']).all inAllowedCharset
      = false ∧
    qualifyName pyAlnumLit ['s'] ['é'] = ['s', '_', '_', 'é'] ∧
    (qualifyName pyAlnumLit ['s'] ['é']).all inAllowedCharset = false := by
  refine ⟨?_, ?_, ?_, ?_⟩ <;> decide

theorem sanitizeChar_kept (isalnum : Char → Bool) (c : Char) :
    (isalnum (sanitizeChar isalnum c) || sanitizeChar isalnum c == '_' ||
      sanitizeChar isalnum c == '-') = true := by
  simp only [sanitizeChar]
  split
  · rename_i h
    exact h
  · simp

theorem sanitizeChar_charset_or_alnum (isalnum : Char → Bool) (c : Char) :
    (inAllowedCharset (sanitizeChar isalnum c) ||
      isalnum (sanitizeChar isalnum c)) = true := by
  have h := sanitizeChar_kept isalnum c
  rcases (by simpa using h :
      (isalnum (sanitizeChar isalnum c) = true ∨
        sanitizeChar isalnum c = '_') ∨ sanitizeChar isalnum c = '-')
    with (h1 | h2) | h3
  · simp [h1]
  · rw [h2]
    rfl
  · rw [h3]
    rfl

/-- Claim C5 (amended): the qualified name is the concatenation of the
hyphen-to-underscore image of the endpoint id, a double underscore, and
the sanitized raw tool name, truncated from the tail to at most 128
characters.  In the raw-name segment every character is kept exactly when
Python's Unicode-aware `isalnum` accepts it or it is an underscore or
hyphen, and every other character is replaced with an underscore — so
each character either lies in `[A-Za-z0-9_-]` or is a (possibly
non-ASCII) Python alphanumeric, and the claimed charset holds of that
segment only up to Unicode alphanumerics.  In the endpoint segment only
hyphens are replaced and all other characters survive, so characters of
the endpoint id outside the set survive as well.  The theorem holds for
every `isalnum` oracle, in particular for Python's. -/
theorem qualify_sanitization_spec (isalnum : Char → Bool)
    (server toolName : List Char) :
    (qualifyName isalnum server toolName).length ≤ 128 ∧
    qualifyName isalnum server toolName =
      (cleanServer server ++ dunder ++ cleanName isalnum toolName).take 128 ∧
    (cleanName isalnum toolName).all
      (fun c => isalnum c || c == '_' || c == '-') = true ∧
    (cleanName isalnum toolName).all
      (fun c => inAllowedCharset c || isalnum c) = true ∧
    (cleanServer server).all (fun c => c != '-') = true := by
  refine ⟨?_, ?_, ?_, ?_, ?_⟩
  · simp only [qualifyName]
    split
    · simp
    · omega
  · simp only [qualifyName]
    split
    · rfl
    · rename_i h
      rw [List.take_of_length_le (by omega)]
  · rw [cleanName, List.all_map]
    apply List.all_eq_true.2
    intro c _
    exact sanitizeChar_kept isalnum c
  · rw [cleanName, List.all_map]
    apply List.all_eq_true.2
    intro c _
    exact sanitizeChar_charset_or_alnum isalnum c
  · rw [cleanServer, List.all_map]
    apply List.all_eq_true.2
    intro c _
    simp only [Function.comp_apply]
    split
    · decide
    · rename_i h
      simpa using h

/-! ### C1: name round-trip — counterexample, amended statement,
witness -/

/-- Claim C1 (counterexample): the claim asserts that for every tool
whose qualified name has length at most 128, decomposition recovers the
raw tool name exactly.  With endpoint id `s` (registered) and raw name
`a.b`, the qualified name `s__a_b` has length 6 ≤ 128, yet decomposition
yields the sanitized name `a_b`, not the raw `a.b` — sanitization is
lossy, so the raw name is not recovered. -/
theorem roundtrip_counterexample :
    (qualifyName pyAlnumLit ['s'] ['a', '.', 'b']).length ≤ 128 ∧
    decomposeName [['s']] (qualifyName pyAlnumLit ['s'] ['a', '.', 'b']) ≠
      (['s'], ['a', '.', 'b']) := by
  constructor <;> decide

theorem splitDunder_boundary (xs ys : List Char)
    (h : noDunder (xs ++ ['_']) = true) :
    splitDunder (xs ++ '_' :: '_' :: ys) = some (xs, ys) := by
  induction xs with
  | nil => rfl
  | cons c xs ih =>
      have hstep : ∀ t : List Char, noDunder (c :: t) = true →
          noDunder t = true := by
        intro t ht
        cases t with
        | nil => rfl
        | cons d t' =>
            simp only [noDunder, Bool.and_eq_true] at ht
            exact ht.2
      have hx : noDunder (xs ++ ['_']) = true := hstep _ h
      rw [List.cons_append, splitDunder.eq_def]
      split
      · rename_i heq
        exact absurd heq (by simp)
      · rename_i rest heq
        -- the qualified prefix would begin with a double underscore,
        -- contradicting `noDunder (xs ++ ['_'])` together with the head
        obtain ⟨hc, htail⟩ := List.cons_eq_cons.1 heq
        cases xs with
        | nil =>
            subst hc
            simp only [List.nil_append, noDunder, Bool.and_eq_true] at h
            simp at h
        | cons d xs' =>
            obtain ⟨hd, _⟩ := List.cons_eq_cons.1 htail
            subst hc
            subst hd
            simp only [List.cons_append, noDunder, Bool.and_eq_true] at h
            simp at h
      · rename_i cq restq hnomatch hne
        obtain ⟨hc, htail⟩ := List.cons_eq_cons.1 hne
        subst hc
        rw [← htail, ih hx]

theorem cleanName_eq_self (isalnum : Char → Bool) (n : List Char)
    (hal : ∀ c, inAllowedCharset c = true →
      (isalnum c || c == '_' || c == '-') = true)
    (h : n.all inAllowedCharset = true) : cleanName isalnum n = n := by
  induction n with
  | nil => rfl
  | cons c n ih =>
      simp only [List.all_cons, Bool.and_eq_true] at h
      simp only [cleanName, List.map_cons]
      rw [show sanitizeChar isalnum c = c by
        simp only [sanitizeChar]
        rw [if_pos (hal c h.1)]]
      have := ih h.2
      simp only [cleanName] at this
      rw [this]

theorem pyAlnumLit_ascii (c : Char) (h : inAllowedCharset c = true) :
    (pyAlnumLit c || c == '_' || c == '-') = true := by
  simp only [inAllowedCharset, Bool.or_eq_true] at h
  rcases h with (h1 | h2) | h3
  · simp [pyAlnumLit, h1]
  · simp [h2]
  · simp [h3]

theorem underToHyphen_cleanServer (s : List Char)
    (h : s.all (fun c => c != '_') = true) :
    underToHyphen (cleanServer s) = s := by
  induction s with
  | nil => rfl
  | cons c s ih =>
      simp only [List.all_cons, Bool.and_eq_true] at h
      simp only [cleanServer, underToHyphen, List.map_cons] at ih ⊢
      rw [ih h.2]
      by_cases hc : c = '-'
      · subst hc; rfl
      · have h1 : (if c == '-' then '_' else c) = c := by
          rw [if_neg (by simpa using hc)]
        rw [h1, if_neg (by simpa using h.1)]

/-- Claim C1 (amended): decomposition recovers `(endpoint-id, raw-name)`
exactly provided that — beyond the claimed length bound of 128 — the raw
tool name already lies in the ASCII set `[A-Za-z0-9_-]` (which the
sanitizer keeps, since Python's `isalnum` accepts ASCII alphanumerics:
hypothesis `hal`, true of the real predicate), the endpoint id contains
no underscore, contains no two adjacent hyphens, does not end with a
hyphen (`noDunder (cleanServer server ++ ['_'])` states these last two on
the hyphen-replaced image), the endpoint id is registered, and no
distinct registered server id equals its hyphen-to-underscore image.
Dropping any of these lets decomposition return a different pair, as the
counterexample shows for sanitization. -/
theorem qualify_decompose_roundtrip (isalnum : Char → Bool)
    (known : List (List Char)) (server toolName : List Char)
    (hal : ∀ c, inAllowedCharset c = true →
      (isalnum c || c == '_' || c == '-') = true)
    (hname : toolName.all inAllowedCharset = true)
    (hu : server.all (fun c => c != '_') = true)
    (hdd : noDunder (cleanServer server ++ ['_']) = true)
    (hk : server ∈ known)
    (hcoll : cleanServer server ∈ known → cleanServer server = server)
    (hlen : server.length + 2 + toolName.length ≤ 128) :
    decomposeName known (qualifyName isalnum server toolName) =
      (server, toolName) := by
  have hclean : cleanName isalnum toolName = toolName :=
    cleanName_eq_self isalnum _ hal hname
  have hfull : qualifyName isalnum server toolName =
      cleanServer server ++ '_' :: '_' :: toolName := by
    have hl : (cleanServer server ++ dunder ++
        cleanName isalnum toolName).length ≤ 128 := by
      simp only [List.length_append, cleanServer, cleanName,
        List.length_map, dunder, List.length_cons, List.length_nil]
      omega
    simp only [qualifyName]
    rw [if_neg (by omega), hclean]
    simp [dunder]
  rw [hfull]
  simp only [decomposeName, splitDunder_boundary _ _ hdd]
  by_cases hmem : cleanServer server ∈ known
  · have := hcoll hmem
    rw [if_pos (by simpa using hmem), this]
  · rw [if_neg (by simpa using hmem),
      underToHyphen_cleanServer server hu,
      if_pos (by simpa using hk)]

/-- Witness for `qualify_decompose_roundtrip`: endpoint id `my-s`
(registered alone), raw name `ping`, `isalnum` instantiated with the
faithful oracle `pyAlnumLit`; all hypotheses hold and the round-trip is
exact. -/
theorem qualify_decompose_roundtrip_witness :
    decomposeName [['m', 'y', '-', 's']]
      (qualifyName pyAlnumLit ['m', 'y', '-', 's'] ['p', 'i', 'n', 'g']) =
      (['m', 'y', '-', 's'], ['p', 'i', 'n', 'g']) :=
  qualify_decompose_roundtrip pyAlnumLit [['m', 'y', '-', 's']]
    ['m', 'y', '-', 's'] ['p', 'i', 'n', 'g'] pyAlnumLit_ascii (by decide)
    (by decide) (by decide) (by decide) (by decide) (by decide)

/-! ### C9: SSE frame scanning — counterexample, amended statement,
witness -/

theorem retryGo_attempts_le (comp : Nat → CompAttempt)
    (m d bound : Nat) (l : List Nat) (hl : ∀ i ∈ l, i + 1 ≤ bound) :
    (retryGo comp m d l).attemptsMade ≤ bound := by
  induction l with
  | nil => simp [retryGo]
  | cons a l ih =>
      have ha := hl a (List.mem_cons_self a l)
      have hl' : ∀ i ∈ l, i + 1 ≤ bound :=
        fun i hi => hl i (List.mem_cons_of_mem a hi)
      cases hc : comp a with
      | ok r =>
          simp only [retryGo, hc]
          simpa using ha
      | exn m0 =>
          simp only [retryGo, hc]
          by_cases ho : isOverloadMsg m0 = true
          · rw [if_pos ho]
            by_cases hlt : a < m - 1
            · rw [if_pos hlt]
              exact ih hl'
            · rw [if_neg hlt]
              simpa using ha
          · rw [if_neg ho]
            simpa using ha

/-- Claim C6: the model-completion call is retried only on overload
errors (`"529"` or `"overloaded"` in the exception text), with at most 3
total attempts; the backoff sleeps are exponentially increasing —
`[]`, `[1]` or `[1, 2]` seconds, i.e. at most two backoff-delayed
retries; when every attempt fails with overload the loop makes exactly 3
attempts, sleeps `[1, 2]`, and surfaces the terminal user-visible
overloaded error; and a tool execution makes exactly one transport
invocation — failed tool executions are never retried. -/
theorem overload_retry_spec :
    (∀ comp : Nat → CompAttempt,
      (retryCompletion comp).attemptsMade ≤ 3 ∧
      ((retryCompletion comp).sleeps = [] ∨
       (retryCompletion comp).sleeps = [1] ∨
       (retryCompletion comp).sleeps = [1, 2])) ∧
    (∀ comp : Nat → CompAttempt,
      (∀ i, i < 3 → attemptOverloads (comp i) = true) →
      (retryCompletion comp).outcome = RetryOutcome.overloadTerminal ∧
      (retryCompletion comp).attemptsMade = 3 ∧
      (retryCompletion comp).sleeps = [1, 2]) ∧
    (∀ (loads : List Char → Option Json) (reg : Registry)
       (exec : ExecReq → Json) (c : ToolCall),
      (processCall loads reg exec c).execReqs.length = 1) := by
  refine ⟨?_, ?_, ?_⟩
  · intro comp
    constructor
    · exact retryGo_attempts_le comp 3 1 3 [0, 1, 2] (by decide)
    · simp only [retryCompletion, retryGo]
      cases comp 0 with
      | ok r => simp
      | exn m0 =>
          by_cases h0 : isOverloadMsg m0 = true
          · simp only [h0, if_true, if_pos (by omega : (0:Nat) < 3 - 1)]
            cases comp 1 with
            | ok r => simp
            | exn m1 =>
                by_cases h1 : isOverloadMsg m1 = true
                · simp only [h1, if_true, if_pos (by omega : (1:Nat) < 3 - 1)]
                  cases comp 2 with
                  | ok r => simp
                  | exn m2 =>
                      by_cases h2 : isOverloadMsg m2 = true
                      · simp only [h2, if_true,
                          if_neg (by omega : ¬ (2:Nat) < 3 - 1)]
                        simp
                      · simp only [h2, Bool.false_eq_true, if_false]
                        simp
                · simp only [h1, Bool.false_eq_true, if_false]
                  simp
          · simp only [h0, Bool.false_eq_true, if_false]
            simp
  · intro comp h
    have h0 := h 0 (by omega)
    have h1 := h 1 (by omega)
    have h2 := h 2 (by omega)
    simp only [retryCompletion, retryGo]
    cases hc0 : comp 0 with
    | ok r => rw [hc0] at h0; simp [attemptOverloads] at h0
    | exn m0 =>
        rw [hc0] at h0
        simp only [attemptOverloads] at h0
        simp only [h0, if_true, if_pos (by omega : (0:Nat) < 3 - 1)]
        cases hc1 : comp 1 with
        | ok r => rw [hc1] at h1; simp [attemptOverloads] at h1
        | exn m1 =>
            rw [hc1] at h1
            simp only [attemptOverloads] at h1
            simp only [h1, if_true, if_pos (by omega : (1:Nat) < 3 - 1)]
            cases hc2 : comp 2 with
            | ok r => rw [hc2] at h2; simp [attemptOverloads] at h2
            | exn m2 =>
                rw [hc2] at h2
                simp only [attemptOverloads] at h2
                simp only [h2, if_true,
                  if_neg (by omega : ¬ (2:Nat) < 3 - 1)]
                simp
  · intro loads reg exec c
    rfl

/-- Witness for `overload_retry_spec`: a completion boundary that always
raises an error whose text contains `529` leads to the terminal
overloaded error after exactly 3 attempts with backoff sleeps of 1 and 2
seconds. -/
theorem overload_retry_spec_witness :
    (retryCompletion (fun _ => CompAttempt.exn ['5', '2', '9'])).outcome =
      RetryOutcome.overloadTerminal ∧
    (retryCompletion (fun _ => CompAttempt.exn ['5', '2', '9'])).attemptsMade
      = 3 ∧
    (retryCompletion (fun _ => CompAttempt.exn ['5', '2', '9'])).sleeps =
      [1, 2] :=
  overload_retry_spec.2.1 (fun _ => CompAttempt.exn ['5', '2', '9'])
    (fun _ _ =>
      (by decide : attemptOverloads (CompAttempt.exn ['5', '2', '9']) = true))

/-! ### C2: the multi-round execution loop — the indentation bug -/

theorem bumpRound_zero_five : bumpRound 0 5 = 5 := by
  simp [bumpRound]

/-- Claim C2 (code bug): with a completion boundary that always returns a
tool call, the handler for one client message leaves the `tool_round`
counter at the cap of 5 — the `while` loop of lines 1722-1727 only
increments it, its intended body being mis-indented outside it — executes
exactly one round of tool calls, emits no `message` event at all (in
particular not the "maximum tool rounds" terminal message, which is
unreachable), and then `continue`s back to awaiting the next client
message, abandoning the further tool calls.  The claimed behaviour —
five executed rounds followed by a terminal round-cap message — does not
occur. -/
theorem round_cap_code_bug :
    (handleTurn alwaysToolCallStub noLoads [] emptyExec).toolRoundVar = 5 ∧
    (handleTurn alwaysToolCallStub noLoads [] emptyExec).toolRoundsExecuted
      = 1 ∧
    (handleTurn alwaysToolCallStub noLoads [] emptyExec).exit =
      TurnExit.awaitNextClientMessage ∧
    (handleTurn alwaysToolCallStub noLoads [] emptyExec).events.all
      (fun e => !isMessageEvent e) = true := by
  refine ⟨bumpRound_zero_five, rfl, rfl, rfl⟩

/-! ### C10: invalid tool-call argument strings — counterexample,
amended statement, witness -/

/-- Claim C10 (counterexample): the claim asserts a call with an invalid
argument string is executed with an *empty* arguments object.  For a
registered Composio endpoint whose server segment contains "slack" and
whose URL embeds a user id, lines 1841-1853 inject `entity_id` into the
arguments after the parse failure, so the executed arguments are not
empty even though the argument string failed to parse. -/
theorem invalid_args_counterexample :
    noLoads slackCall.argumentsRaw = none ∧
    (processCall noLoads slackRegistry emptyExec slackCall).execReqs.map
      (fun r => hasKey r.args "entity_id") = [true] := by
  constructor <;> rfl

theorem slackInject_empty (s : List Char) (cfg : ServerConfig) :
    slackInject s cfg (Json.obj []) = Json.obj [] ∨
    ∃ u, slackInject s cfg (Json.obj []) =
      Json.obj [("entity_id", Json.str u)] := by
  simp only [slackInject]
  split
  · cases hu : cfg.slackUserId with
    | none => exact Or.inl rfl
    | some u => exact Or.inr ⟨u, rfl⟩
  · exact Or.inl rfl

/-- Claim C10 (amended): for every model-issued tool call whose arguments
string is not valid JSON, the engine does not fail or skip the call: the
`tool_call` event is emitted carrying an empty arguments object, the tool
is executed exactly once — with an empty arguments object, except that
for a registered Composio endpoint whose server segment contains "slack"
and whose URL embeds a user id the extracted entity id is first injected
into that empty object — and a tool-result message keyed by the
model-issued call id is appended to the conversation. -/
theorem invalid_args_empty_object_spec
    (loads : List Char → Option Json) (reg : Registry)
    (exec : ExecReq → Json) (c : ToolCall)
    (hbad : loads c.argumentsRaw = none) :
    (processCall loads reg exec c).events.head? =
      some (Event.toolCallEv (decomposeName (registryNames reg) c.name).1
        (decomposeName (registryNames reg) c.name).2 (Json.obj [])) ∧
    (processCall loads reg exec c).execReqs.length = 1 ∧
    (∀ r ∈ (processCall loads reg exec c).execReqs,
      r.args = Json.obj [] ∨
      ∃ u, r.args = Json.obj [("entity_id", Json.str u)]) ∧
    (∃ result, (processCall loads reg exec c).msg =
      ConvMsg.toolMsg c.id result) := by
  refine ⟨?_, ?_, ?_, ?_⟩
  · simp only [processCall, hbad]
    rfl
  · rfl
  · intro r hr
    simp only [processCall, hbad] at hr
    simp only [List.mem_singleton] at hr
    subst hr
    cases hf : registryFind reg (decomposeName (registryNames reg) c.name).1
      with
    | some cfg =>
        simp only [hf]
        exact slackInject_empty _ cfg
    | none =>
        simp [hf]
  · exact ⟨_, rfl⟩

/-- Witness for `invalid_args_empty_object_spec` at `plainCall` (argument
string `x`, no registered endpoints): the call still executes exactly
once. -/
theorem invalid_args_empty_object_spec_witness :
    (processCall noLoads [] emptyExec plainCall).execReqs.length = 1 :=
  (invalid_args_empty_object_spec noLoads [] emptyExec plainCall rfl).2.1

/-! ### C7 and C8: discovery fallback chains and the static Composio
catalog -/

/-- Claim C8 (code bug): for a Composio endpoint whose listing attempts
all fail with `MethodNotFound`, discovery returns an *empty* catalog:
the branch of lines 1474-1477 only logs "Using hardcoded tool
definitions for Composio" without assigning them, and
`ComposioToolsDirect.get_gmail_tools` — which does build a non-empty
static list of fourteen descriptors — is never called anywhere in the
repository.  The claimed fallback to the statically bundled tool list
does not happen and the endpoint is left tool-less. -/
theorem composio_static_fallback_code_bug :
    (discover allMethodNotFound []).2 = Json.arr [] ∧
    pyTruthy (discover allMethodNotFound []).2 = false ∧
    (discover allMethodNotFound []).1 =
      ["tools/list", "composio/tools/list", "composio.tools.list",
       "getTools", "get_tools", "listTools", "list_tools",
       "mcp/list_tools", "listTools", "list"] ∧
    (getGmailTools true).length = 14 := by
  refine ⟨rfl, rfl, rfl, ?_⟩
  simp only [getGmailTools, Bool.not_true, Bool.false_eq_true, if_false,
    List.length_map]
  rfl

/-- Claim C7 (counterexample): the claim asserts the alternate listing
methods are tried in a fixed priority order, stopping at the first one
that returns a non-error result containing a tools array.  Against
`chain2StopsServer`, no tried method ever returns a non-error result
containing a tools array, yet trying stops after `mcp/list_tools` — a
method of the code's own fallback repertoire (`list`) is never posted,
because the second fallback chain of lines 1356-1386 advances only while
the previous response is exactly the `-32601` error, stopping at any
other response whether or not it contains tools. -/
theorem discovery_fallback_counterexample :
    (discover chain2StopsServer []).1 =
      ["tools/list", "composio/tools/list", "composio.tools.list",
       "getTools", "get_tools", "listTools", "list_tools",
       "mcp/list_tools"] ∧
    "list" ∉ (discover chain2StopsServer []).1 ∧
    ((discover chain2StopsServer []).1.all
      (fun m => !isAltWinner (chain2StopsServer m))) = true ∧
    (discover chain2StopsServer []).2 = Json.arr [] := by
  refine ⟨rfl, by decide, rfl, rfl⟩

/-- Claim C7 (amended): discovery for an endpoint whose `initialize`
response embedded a tools array uses those tools directly and makes no
listing RPC.  Otherwise `tools/list` is posted first; when its reply
triggers the fallback (status 200, parsing to a truthy value with error
code `-32601`) the six alternate methods are tried in their fixed order,
stopping at — and adopting — the first whose reply parses to a truthy
dict whose `result` contains `tools`; methods before the winner all
failed that test, and with no winner all six are tried.  A second chain
then posts `mcp/list_tools`, `listTools`, `list` in order, but each step
runs only while the current response body parses as plain JSON bearing
error code exactly `-32601`: any other response — including a non-error
reply without tools — stops the chain, so the fixed order need not be
exhausted even when no tools were found. -/
theorem discovery_fallback_spec :
    (∀ (srv : String → Resp) (initTools : List Json), initTools ≠ [] →
      discover srv initTools = ([], Json.arr initTools)) ∧
    (∀ (srv : String → Resp) (ms : List String) (r : Resp),
      (chain1Go srv ms).2 = some r →
      ∃ pre m post, ms = pre ++ m :: post ∧
        (∀ mq ∈ pre, isAltWinner (srv mq) = false) ∧
        isAltWinner (srv m) = true ∧ r = srv m ∧
        (chain1Go srv ms).1 = pre ++ [m]) ∧
    (∀ (srv : String → Resp) (ms : List String),
      (chain1Go srv ms).2 = none →
      (chain1Go srv ms).1 = ms ∧
      ∀ mq ∈ ms, isAltWinner (srv mq) = false) ∧
    (∀ (srv : String → Resp) (r : Resp) (m : String) (ms : List String),
      (r.pyJson = none ∨
        ∃ j, r.pyJson = some j ∧ errCodeIs32601 j = false) →
      chain2Go srv r (m :: ms) = ([], r)) ∧
    (∀ (srv : String → Resp) (r : Resp) (m : String) (ms : List String)
       (j : Json), r.pyJson = some j → errCodeIs32601 j = true →
      (chain2Go srv r (m :: ms)).1 = m :: (chain2Go srv (srv m) ms).1 ∧
      (chain2Go srv r (m :: ms)).2 = (chain2Go srv (srv m) ms).2) := by
  refine ⟨?_, ?_, ?_, ?_, ?_⟩
  · intro srv initTools h
    cases initTools with
    | nil => exact absurd rfl h
    | cons t ts => rfl
  · intro srv ms
    induction ms with
    | nil => intro r hr; simp [chain1Go] at hr
    | cons m ms ih =>
        intro r hr
        simp only [chain1Go] at hr ⊢
        by_cases hw : isAltWinner (srv m) = true
        · rw [if_pos hw] at hr ⊢
          simp only [Option.some_inj] at hr
          exact ⟨[], m, ms, rfl, by simp, hw, hr.symm, rfl⟩
        · rw [if_neg hw] at hr ⊢
          dsimp only at hr ⊢
          obtain ⟨pre, mq, post, hms, hpre, hwin, hrq, hcalls⟩ := ih r hr
          refine ⟨m :: pre, mq, post, by simp [hms], ?_, hwin, hrq, ?_⟩
          · intro x hx
            rcases List.mem_cons.1 hx with rfl | hx
            · simpa using hw
            · exact hpre x hx
          · simp only [List.cons_append, List.cons_inj_right]
            exact hcalls
  · intro srv ms
    induction ms with
    | nil => intro hr; exact ⟨rfl, by simp⟩
    | cons m ms ih =>
        intro hr
        simp only [chain1Go] at hr ⊢
        by_cases hw : isAltWinner (srv m) = true
        · rw [if_pos hw] at hr
          simp at hr
        · rw [if_neg hw] at hr ⊢
          dsimp only at hr ⊢
          obtain ⟨hcalls, hnone⟩ := ih hr
          refine ⟨by rw [hcalls], ?_⟩
          intro x hx
          rcases List.mem_cons.1 hx with rfl | hx
          · simpa using hw
          · exact hnone x hx
  · intro srv r m ms h
    rcases h with h | ⟨j, hj, hcode⟩
    · simp [chain2Go, h]
    · simp [chain2Go, hj, hcode]
  · intro srv r m ms j hj hcode
    constructor <;> simp [chain2Go, hj, hcode]

/-- Witness for `discovery_fallback_spec`: an endpoint whose `initialize`
response embedded one tool makes no listing RPC and its catalog is that
embedded array. -/
theorem discovery_fallback_spec_witness :
    discover allMethodNotFound [Json.str "PING"] =
      ([], Json.arr [Json.str "PING"]) :=
  discovery_fallback_spec.1 allMethodNotFound [Json.str "PING"] (by simp)

end McpClient
